import Mathlib

/-!
Verification of the SmashForm motion-segmentation and feature-comparison engine
(`backend/app/core/{shot_segmenter,biomechanics,comparison}.py`).

The engine is embedded shallowly over exact rationals: Python floats become `ℚ`
(the pipeline's branch decisions all have large margins, so exact rational
arithmetic is the intended idealization of the float computation), machine
integers become `ℕ`/`ℤ`, and fallible "return None" paths become `Option`.
The purely geometric keypoint-to-sample steps (`arccos`, `atan2`, `hypot`) are
transcendental and are kept abstract: the segmenter and feature extractor are
embedded from the point where each per-frame signal sample (an angle, a
position, or a speed) has been produced, which is exactly the level at which
the specification states its scenarios and invariants.
-/

namespace SmashForm

/-- A pose keypoint (`schemas.Keypoint`): planar coordinates, depth proxy, and
detection confidence. -/
structure Keypoint where
  x : ℚ
  y : ℚ
  z : ℚ
  visibility : ℚ
deriving DecidableEq

/-- Temporal boundaries of the detected shot (`schemas.ShotSegment`). -/
structure ShotSegment where
  start_frame : ℕ
  contact_frame : ℕ
  end_frame : ℕ
  total_frames : ℕ
  duration_ms : ℚ
deriving DecidableEq

/-- Severity grade of a metric deviation (`schemas.SeverityLevel`). -/
inductive SeverityLevel where
  | low
  | medium
  | high
deriving DecidableEq

/-- Python's builtin `round` on an exact rational: round half to even. -/
def pyRound (q : ℚ) : ℤ :=
  if q - (⌊q⌋ : ℚ) < 1 / 2 then ⌊q⌋
  else if 1 / 2 < q - (⌊q⌋ : ℚ) then ⌊q⌋ + 1
  else if ⌊q⌋ % 2 = 0 then ⌊q⌋ else ⌊q⌋ + 1

/-- Python's `round(q, 1)`: round to one decimal place, half to even. -/
def roundTo1 (q : ℚ) : ℚ := (pyRound (q * 10) : ℚ) / 10

/-! ## Reference comparator (`comparison.py`) -/

/-- Severity classification (`ReferenceComparator._classify_severity`,
`comparison.py` lines 207-246). `difference` is user minus reference;
`hib` is the optional `higher_is_better` flag. -/
def classifySeverity (difference tolerance : ℚ) (hib : Option Bool) : SeverityLevel :=
  if |difference| ≤ tolerance then .low
  else if |difference| ≤ tolerance * 2 then
    if hib = some true ∧ 0 < difference then .low
    else if hib = some false ∧ difference < 0 then .low
    else .medium
  else
    if hib = some true ∧ 0 < difference then .medium
    else if hib = some false ∧ difference < 0 then .medium
    else .high

/-- Per-feature weights used by the similarity score
(`FEATURE_WEIGHTS.get(name, 1.0)`, `comparison.py` lines 267-286). -/
def weightOf : String → ℚ
  | "shoulder_rotation_angle" => 1
  | "shoulder_angular_velocity" => 12 / 10
  | "elbow_extension_angle" => 1
  | "elbow_angular_velocity" => 12 / 10
  | "wrist_snap_timing" => 15 / 10
  | "hip_shoulder_separation" => 1
  | "knee_flexion_angle" => 8 / 10
  | "com_vertical_displacement" => 6 / 10
  | "hip_shoulder_delay" => 13 / 10
  | "shoulder_elbow_delay" => 13 / 10
  | "elbow_wrist_delay" => 13 / 10
  | "swing_duration_ms" => 7 / 10
  | _ => 1

/-- Per-feature tolerance from the built-in metadata table
(`FEATURE_METADATA.get(name, {}).get("tolerance", 10)`, `comparison.py`
lines 26-123 and 291-292). -/
def toleranceOf : String → ℚ
  | "shoulder_rotation_angle" => 10
  | "shoulder_angular_velocity" => 150
  | "elbow_extension_angle" => 10
  | "elbow_angular_velocity" => 200
  | "wrist_snap_timing" => 3
  | "hip_shoulder_separation" => 8
  | "knee_flexion_angle" => 15
  | "com_vertical_displacement" => 20
  | "hip_shoulder_delay" => 10
  | "shoulder_elbow_delay" => 8
  | "elbow_wrist_delay" => 6
  | "swing_duration_ms" => 40
  | _ => 10

/-- One biomechanics comparison result (`schemas.BiomechanicsMetric`; the
display strings are omitted as no claim mentions them). -/
structure BiomechanicsMetric where
  name : String
  user_value : ℚ
  reference_value : ℚ
  difference : ℚ
  difference_percent : ℚ
  severity : SeverityLevel
deriving DecidableEq

/-- Overall similarity score (`ReferenceComparator.compute_similarity_score`,
`comparison.py` lines 248-305): weighted mean of tolerance-band feature
scores, rounded to one decimal. -/
def computeSimilarityScore (metrics : List BiomechanicsMetric) : ℚ :=
  if metrics = [] then 0
  else if (metrics.map fun m => weightOf m.name).sum = 0 then 0
  else
    roundTo1 (((metrics.map fun m =>
        weightOf m.name *
          (100 * (1 - min (|m.difference| / (toleranceOf m.name * 2)) 1))).sum)
      / (metrics.map fun m => weightOf m.name).sum)

/-- Modelled from the spec: `similarity_score(metrics)` as §4.5 words it — the
weighted mean of per-feature scores `100 × (1 − min(|difference|/(2·tolerance), 1))`
with the per-feature weights (default 1.0), `0.0` on an empty list, rounded to
one decimal.  Stated separately so the code's extra `total_weight == 0` guard
can be proved redundant. -/
def specSimilarityScore (metrics : List BiomechanicsMetric) : ℚ :=
  if metrics = [] then 0
  else
    roundTo1 (((metrics.map fun m =>
        weightOf m.name * (100 * (1 - min (|m.difference| / (2 * toleranceOf m.name)) 1))).sum)
      / (metrics.map fun m => weightOf m.name).sum)

/-! ## Signal preprocessor: interpolation -/

/-- Valid samples of an optional series together with their index positions
(the `~nans` mask combined with `np.arange(len(data))`). -/
def validPairs (xs : List (Option ℚ)) : List (ℕ × ℚ) :=
  ((List.range xs.length).zip xs).filterMap fun p =>
    match p.2 with
    | some v => some (p.1, v)
    | none => none

/-- Value `np.interp` assigns at a missing index `i`: linear interpolation
between the nearest valid neighbours on either side, clamped to the edge
value when only one side has a valid sample, and 0 when no valid sample
exists (that case is unreachable in both guarded callers). -/
def interpAt (valid : List (ℕ × ℚ)) (i : ℕ) : ℚ :=
  match (valid.filter fun p => p.1 < i).getLast?, (valid.filter fun p => i < p.1).head? with
  | some l, some r => l.2 + (r.2 - l.2) * ((i : ℚ) - (l.1 : ℚ)) / ((r.1 : ℚ) - (l.1 : ℚ))
  | none, some r => r.2
  | some l, none => l.2
  | none, none => 0

/-- Single output sample of the interpolation routines: a valid sample is kept,
a missing one is filled by `np.interp`. -/
def fillOne (xs : List (Option ℚ)) (i : ℕ) : ℚ :=
  match xs.getD i none with
  | some v => v
  | none => interpAt (validPairs xs) i

/-- Linear interpolation of missing samples, segmenter version
(`ShotSegmenter._interpolate_nans`, `shot_segmenter.py` lines 312-327): when
every entry is missing the (copied) input is returned unchanged, otherwise
every gap is filled. -/
def interpolateNansSeg (xs : List (Option ℚ)) : List (Option ℚ) :=
  if xs.all fun o => o.isNone then xs
  else (List.range xs.length).map fun i => some (fillOne xs i)

/-- Linear interpolation of missing samples, extractor version
(`BiomechanicsExtractor._interpolate_nans`, `biomechanics.py` lines 573-581):
an all-missing series becomes `np.zeros_like(data)`, otherwise every gap is
filled; the output carries plain values since no missing sample survives. -/
def interpolateNansBio (xs : List (Option ℚ)) : List ℚ :=
  if xs.all fun o => o.isNone then List.replicate xs.length 0
  else (List.range xs.length).map fun i => fillOne xs i

/-! ## Signal preprocessor: Savitzky-Golay smoothing -/

/-- Least-squares degree-2 polynomial fit through the sample points `pts`,
evaluated at `t`: the exact-arithmetic content of `np.polyfit(·, ·, 2)`
followed by polynomial evaluation, written out via Cramer's rule on the
normal equations. -/
def polyfit2eval (pts : List (ℚ × ℚ)) (t : ℚ) : ℚ :=
  let s0 : ℚ := (pts.map fun _ => (1 : ℚ)).sum
  let s1 := (pts.map fun p => p.1).sum
  let s2 := (pts.map fun p => p.1 ^ 2).sum
  let s3 := (pts.map fun p => p.1 ^ 3).sum
  let s4 := (pts.map fun p => p.1 ^ 4).sum
  let t0 := (pts.map fun p => p.2).sum
  let t1 := (pts.map fun p => p.1 * p.2).sum
  let t2 := (pts.map fun p => p.1 ^ 2 * p.2).sum
  let det := s0 * (s2 * s4 - s3 * s3) - s1 * (s1 * s4 - s3 * s2) + s2 * (s1 * s3 - s2 * s2)
  let da := t0 * (s2 * s4 - s3 * s3) - s1 * (t1 * s4 - s3 * t2) + s2 * (t1 * s3 - s2 * t2)
  let db := s0 * (t1 * s4 - s3 * t2) - t0 * (s1 * s4 - s3 * s2) + s2 * (s1 * t2 - t1 * s2)
  let dc := s0 * (s2 * t2 - t1 * s3) - s1 * (s1 * t2 - t1 * s2) + t0 * (s1 * s3 - s2 * s2)
  da / det + (db / det) * t + (dc / det) * t ^ 2

/-- Degree-2 Savitzky-Golay filter with odd window `w ≤` series length in the
default `mode="interp"` (`scipy.signal.savgol_filter(x, w, polyorder=2)`):
interior samples get the symmetric least-squares window fit evaluated at the
centre; the first and last half-windows are filled by fitting the first/last
`w` samples and evaluating that fit at the boundary positions. -/
def savgolFilter (w : ℕ) (x : List ℚ) : List ℚ :=
  (List.range x.length).map fun i =>
    if i < w / 2 then
      polyfit2eval ((List.range w).map fun (t : ℕ) => ((t : ℚ), x.getD t 0)) (i : ℚ)
    else if x.length ≤ i + w / 2 then
      polyfit2eval ((List.range w).map fun (t : ℕ) => ((t : ℚ), x.getD (x.length - w + t) 0))
        (((i - (x.length - w) : ℕ) : ℚ))
    else
      polyfit2eval ((List.range w).map fun (t : ℕ) => ((t : ℚ), x.getD (i - w / 2 + t) 0))
        (((w / 2 : ℕ) : ℚ))

/-- Decrement an even window to the next odd value (`if window % 2 == 0:
window -= 1`). -/
def shrinkOdd (w : ℕ) : ℕ := if w % 2 = 0 then w - 1 else w

/-- Signal smoothing, segmenter version (`ShotSegmenter._smooth_signal`,
`shot_segmenter.py` lines 299-310): series shorter than the window 5 are
returned unchanged, otherwise the window is clipped to `len - 1`, made odd,
and applied when at least 3. -/
def smoothSignal (data : List ℚ) : List ℚ :=
  if data.length < 5 then data
  else if shrinkOdd (min 5 (data.length - 1)) < 3 then data
  else savgolFilter (shrinkOdd (min 5 (data.length - 1))) data

/-- Signal smoothing, extractor version (`BiomechanicsExtractor._smooth`,
`biomechanics.py` lines 583-591): series shorter than the window are returned
unchanged, otherwise the window is made odd and applied when at least 3. -/
def smoothBio (data : List ℚ) (window : ℕ) : List ℚ :=
  if data.length < window then data
  else if shrinkOdd window < 3 then data
  else savgolFilter (shrinkOdd window) data

/-- Modelled from the spec: §4.1 `smooth(series, window=5)` on a series
shorter than the configured window — shrink the window to an odd length that
fits the series, skip smoothing entirely below length 3, and apply the
degree-2 local polynomial smoother with the shrunken window. -/
def specShrinkSmooth (xs : List ℚ) : List ℚ :=
  if xs.length < 3 then xs
  else savgolFilter (shrinkOdd (min 5 xs.length)) xs

/-! ## Peak detection (`scipy.signal.find_peaks` with `prominence` and
`distance`, as called by the segmenter) -/

/-- First index of the maximum value of a list (`np.argmax`; numpy returns
the first occurrence of the maximum), 0 on the empty list. -/
def argmaxList (l : List ℚ) : ℕ :=
  WithBot.recBotCoe 0 (fun m => l.indexOf m) l.maximum

/-- First index of the minimum value of a list (`np.argmin`), 0 on the empty
list. -/
def argminList (l : List ℚ) : ℕ :=
  WithTop.recTopCoe 0 (fun m => l.indexOf m) l.minimum

/-- Structural engine of `aheadIdx`: `fuel` counts the remaining steps to
`iMax`, so running out of fuel is exactly reaching `iMax`. -/
def aheadIdxFuel (x : List ℚ) (v : ℚ) : ℕ → ℕ → ℕ
  | 0, j => j
  | fuel + 1, j => if x.getD j 0 = v then aheadIdxFuel x v fuel (j + 1) else j

/-- End of the plateau starting at `j`: the first index `≥ j` that either
reaches `iMax` or carries a value different from `v` (the inner `while` of
scipy's `_local_maxima_1d`). -/
def aheadIdx (x : List ℚ) (iMax : ℕ) (v : ℚ) (j : ℕ) : ℕ :=
  aheadIdxFuel x v (iMax - j) j

/-- Indices of the local maxima of a signal, plateaus reported at their
midpoint, boundary samples never peaks (scipy `_local_maxima_1d`; the loop
there skips ahead over detected plateaus, which visits exactly the indices
whose rise test fails, so the filter below is extensionally identical). -/
def localMaxima (x : List ℚ) : List ℕ :=
  (List.range x.length).filterMap fun i =>
    if 1 ≤ i ∧ i < x.length - 1 ∧ x.getD (i - 1) 0 < x.getD i 0 then
      if x.getD (aheadIdx x (x.length - 1) (x.getD i 0) (i + 1)) 0 < x.getD i 0 then
        some ((i + (aheadIdx x (x.length - 1) (x.getD i 0) (i + 1) - 1)) / 2)
      else none
    else none

/-- Keep-mask of the minimum-distance filter (scipy
`_select_by_peak_distance`): peaks are processed from the highest down, and a
surviving peak clears every other peak strictly closer than `dist`. The
processing order on equal heights is unspecified in numpy's `argsort`; the
embedding fixes the stable order (later index first among equal heights), and
every concrete input below has pairwise distinct peak heights. -/
def insertByHeight (heights : List ℚ) (j : ℕ) : List ℕ → List ℕ
  | [] => [j]
  | k :: t =>
    if heights.getD k 0 ≤ heights.getD j 0 then k :: insertByHeight heights j t
    else j :: k :: t

/-- Stable ascending argsort of the index list by height (insertion sort:
each index is inserted after every already-placed index of smaller or equal
height). -/
def argsortAsc (heights : List ℚ) (idxs : List ℕ) : List ℕ :=
  idxs.foldl (fun acc j => insertByHeight heights j acc) []

def sbpd (peaks : List ℕ) (heights : List ℚ) (dist : ℕ) : List Bool :=
  ((argsortAsc heights (List.range peaks.length)).reverse).foldl
    (fun keep j =>
      if keep.getD j true then
        (List.range peaks.length).map fun k =>
          if k = j then keep.getD k true
          else if max (peaks.getD j 0) (peaks.getD k 0)
              - min (peaks.getD j 0) (peaks.getD k 0) < dist then false
          else keep.getD k true
      else keep)
    (List.replicate peaks.length true)

/-- Minimum of the values scanned leftwards from index `i` while they stay
`≤ h` (left half of scipy `_peak_prominences`). -/
def leftScanMin (x : List ℚ) (h : ℚ) : ℕ → ℚ → ℚ
  | 0, m => if x.getD 0 0 ≤ h then min m (x.getD 0 0) else m
  | i + 1, m =>
    if x.getD (i + 1) 0 ≤ h then leftScanMin x h i (min m (x.getD (i + 1) 0)) else m

/-- Structural engine of `rightScanMin`: `fuel` counts the remaining indices
up to and including `iMax`. -/
def rightScanFuel (x : List ℚ) (h : ℚ) : ℕ → ℕ → ℚ → ℚ
  | 0, _, m => m
  | fuel + 1, i, m =>
    if x.getD i 0 ≤ h then rightScanFuel x h fuel (i + 1) (min m (x.getD i 0)) else m

/-- Minimum of the values scanned rightwards from index `i` up to `iMax`
while they stay `≤ h` (right half of scipy `_peak_prominences`). -/
def rightScanMin (x : List ℚ) (h : ℚ) (iMax : ℕ) (i : ℕ) (m : ℚ) : ℚ :=
  rightScanFuel x h (iMax + 1 - i) i m

/-- Kernel-reducible maximum of two rationals. -/
def maxQ (a b : ℚ) : ℚ := if a ≤ b then b else a

/-- Prominence of the peak at index `p`: its height minus the higher of the
two scan minima (scipy `_peak_prominences` with unrestricted `wlen`). -/
def prominenceAt (x : List ℚ) (p : ℕ) : ℚ :=
  x.getD p 0 - maxQ (leftScanMin x (x.getD p 0) p (x.getD p 0))
    (rightScanMin x (x.getD p 0) (x.length - 1) p (x.getD p 0))

/-- Peak detection (`scipy.signal.find_peaks(x, prominence=·, distance=·)`):
local maxima, then the distance filter, then prominences of the survivors,
then the prominence filter `qual`; returns surviving peaks paired with their
prominences. -/
def findPeaksProm (x : List ℚ) (dist : ℕ) (qual : ℚ → Bool) : List (ℕ × ℚ) :=
  ((((localMaxima x).zip
      (sbpd (localMaxima x) ((localMaxima x).map fun p => x.getD p 0) dist)).filterMap
    fun pb => if pb.2 then some pb.1 else none).map
      fun p => (p, prominenceAt x p)).filter fun pp => qual pp.2

/-- Arithmetic mean of a series (`np.mean`), 0 on the empty list. -/
def meanQ (l : List ℚ) : ℚ := l.sum / l.length

/-- Population variance of a series (the square of `np.std`). -/
def varianceQ (l : List ℚ) : ℚ := ((l.map fun v => (v - meanQ l) ^ 2).sum) / l.length

/-- Prominence-threshold test of the wrist-peak search: the source compares
each prominence against `np.std(search_region) * 0.5`; since a prominence and
a standard deviation are both nonnegative this is equivalent to the squared
comparison used here, which keeps the definition rational-executable
(`wristQual_iff_sqrt` proves the equivalence). -/
def wristQual (region : List ℚ) (p : ℚ) : Bool :=
  decide (0 ≤ p ∧ varianceQ region ≤ 4 * p ^ 2)

/-! ## Shot segmenter (`shot_segmenter.py`) -/

/-- Shot-start search (`ShotSegmenter._find_knee_flexion_peak`, lines
233-262): restrict the smoothed flexion signal to its first 60 percent, find
local minima (peaks of the negated signal) with prominence at least 5 and
spacing at least 3, return the most prominent one, falling back to the global
minimum; `None` when the restricted window is shorter than 5. -/
def findKneeFlexionPeak (angles : List ℚ) : Option ℕ :=
  if angles.length * 3 / 5 < 5 then none
  else
    if findPeaksProm ((angles.take (angles.length * 3 / 5)).map fun v => -v) 3
        (fun p => decide (5 ≤ p)) = [] then
      some (argminList (angles.take (angles.length * 3 / 5)))
    else
      some ((findPeaksProm ((angles.take (angles.length * 3 / 5)).map fun v => -v) 3
          (fun p => decide (5 ≤ p))).getD
        (argmaxList ((findPeaksProm ((angles.take (angles.length * 3 / 5)).map fun v => -v) 3
          (fun p => decide (5 ≤ p))).map fun pp => pp.2)) (0, 0)).1

/-- Contact search (`ShotSegmenter._find_wrist_velocity_peak`, lines
264-297): `None` when at most 5 frames remain from `afterFrame` on; otherwise
search the region from `afterFrame` (inclusive) for peaks with prominence at
least half the region's standard deviation and spacing 3, returning the
highest such peak, falling back to the region's global maximum. -/
def findWristVelocityPeak (velocities : List ℚ) (afterFrame : ℕ) : Option ℕ :=
  if velocities.length ≤ afterFrame + 5 then none
  else
    if findPeaksProm (velocities.drop afterFrame) 3
        (wristQual (velocities.drop afterFrame)) = [] then
      some (afterFrame + argmaxList (velocities.drop afterFrame))
    else
      some (afterFrame +
        ((findPeaksProm (velocities.drop afterFrame) 3
            (wristQual (velocities.drop afterFrame))).getD
          (argmaxList ((findPeaksProm (velocities.drop afterFrame) 3
              (wristQual (velocities.drop afterFrame))).map
            fun pp => (velocities.drop afterFrame).getD pp.1 0)) (0, 0)).1)

/-- Core of `ShotSegmenter.segment_shot` (`shot_segmenter.py` lines 52-111)
over the two extracted per-frame signals: `n` is the pose count, `kneeAngles`
and `wristVelocities` are the results of the two signal builders (`None` when
they fail their 15-valid-sample gates; both arrays have length `n` whenever
present). The keypoint-to-signal geometry (`arccos` of joint vectors, the
central-difference speed magnitude) is transcendental and is taken as input
here; `int(fps * 0.1)` is modelled as `⌊fps / 10⌋` (exact for every
nonnegative frame rate of interest). -/
def segmentShotSig (n : ℕ) (fps : ℚ) (kneeAngles wristVelocities : Option (List ℚ)) :
    Option ShotSegment :=
  if n < 15 then none
  else
    match kneeAngles, wristVelocities with
    | some ka, some wv =>
      match findKneeFlexionPeak (smoothSignal ka) with
      | none => none
      | some startF =>
        match findWristVelocityPeak (smoothSignal wv) startF with
        | none => none
        | some contactF =>
          if contactF ≤ startF then none
          else
            some { start_frame := startF
                   contact_frame := contactF
                   end_frame := min (contactF + (⌊fps / 10⌋).toNat) (n - 1)
                   total_frames := contactF - startF
                   duration_ms :=
                     if 0 < fps then ((contactF - startF : ℕ) : ℚ) / fps * 1000 else 0 }
    | _, _ => none


/-! ## Kinetic-chain delays (`biomechanics.py`) -/

/-- One kinetic-chain delay entry (`biomechanics.py` lines 471-487): present
exactly when both constituent series exist, with value
`(argmax(later) - argmax(earlier)) / fps * 1000`. -/
def delayEntry (name : String) (earlier later : Option (List ℚ)) (fps : ℚ) :
    List (String × ℚ) :=
  match earlier, later with
  | some a, some b =>
    [(name, (((argmaxList b : ℤ) - (argmaxList a : ℤ) : ℤ) : ℚ) / fps * 1000)]
  | _, _ => []

/-- Delay entries of `BiomechanicsExtractor._compute_kinetic_chain_delays`
(`biomechanics.py` lines 468-489): one entry per pair of existing velocity
series, in source dict-insertion order. -/
def kineticChainDelayList (hipRot shoulderRot elbowVel wristVel : Option (List ℚ))
    (fps : ℚ) : List (String × ℚ) :=
  delayEntry "hip_shoulder" hipRot shoulderRot fps
    ++ delayEntry "shoulder_elbow" shoulderRot elbowVel fps
    ++ delayEntry "elbow_wrist" elbowVel wristVel fps

/-- Timing delays between kinetic-chain segments
(`BiomechanicsExtractor._compute_kinetic_chain_delays`, `biomechanics.py`
lines 445-489). The four rotational/linear velocity series are taken as
`Option` inputs (the series builders return `None` below 3 valid samples and
involve transcendental geometry); `None` is returned when no pair of series
is complete (`return results if results else None`). -/
def computeKineticChainDelays (hipRot shoulderRot elbowVel wristVel : Option (List ℚ))
    (fps : ℚ) : Option (List (String × ℚ)) :=
  if kineticChainDelayList hipRot shoulderRot elbowVel wristVel fps = [] then none
  else some (kineticChainDelayList hipRot shoulderRot elbowVel wristVel fps)

/-- Association-list lookup with default (`dict.get(key, default)`). -/
def lookupD (l : List (String × ℚ)) (k : String) (d : ℚ) : ℚ := (l.lookup k).getD d

/-- The three delay entries `extract_all_features` adds to the feature vector
(`biomechanics.py` lines 105-110): nothing when the delay computation
returned `None`, otherwise all three keys with `dict.get(·, 0)` defaults. -/
def kineticChainFeatures (kcd : Option (List (String × ℚ))) : List (String × ℚ) :=
  match kcd with
  | none => []
  | some r =>
    [("hip_shoulder_delay", lookupD r "hip_shoulder" 0),
     ("shoulder_elbow_delay", lookupD r "shoulder_elbow" 0),
     ("elbow_wrist_delay", lookupD r "elbow_wrist" 0)]

/-! ## Per-frame keypoint validity guards -/

/-- Knee-angle sample guard (`ShotSegmenter._compute_knee_angles`,
`shot_segmenter.py` lines 129-139, and identically
`BiomechanicsExtractor._compute_knee_flexion`, `biomechanics.py` lines
376-385): all three joints present and `min(visibilities) < 0.5` rejected. -/
def kneeSampleValid (hip knee ankle : Option Keypoint) : Bool :=
  match hip, knee, ankle with
  | some h, some k, some a =>
    if min (min h.visibility k.visibility) a.visibility < 1 / 2 then false else true
  | _, _, _ => false

/-- Wrist position sample of the segmenter's speed signal
(`ShotSegmenter._compute_wrist_velocities`, `shot_segmenter.py` lines
174-182): the position when `visibility > 0.5`, missing otherwise. -/
def wristSampleSeg (w : Option Keypoint) : Option (ℚ × ℚ) :=
  match w with
  | some k => if k.visibility > 1 / 2 then some (k.x, k.y) else none
  | none => none

/-- Centre-of-mass sample
(`BiomechanicsExtractor._compute_com_vertical_displacement`,
`biomechanics.py` lines 419-430): mean hip height when both hips are present
with `min(visibilities) > 0.5`, missing otherwise. -/
def comSampleBio (leftHip rightHip : Option Keypoint) : Option ℚ :=
  match leftHip, rightHip with
  | some lh, some rh =>
    if min lh.visibility rh.visibility > 1 / 2 then some ((lh.y + rh.y) / 2) else none
  | _, _ => none

/-- Joint-visibility test of the wrist-snap timing series
(`BiomechanicsExtractor._compute_wrist_snap_timing`, `biomechanics.py` lines
254 and 261): a sample contributes only when `visibility > 0.5`. -/
def snapSampleValid (j : Option Keypoint) : Bool :=
  match j with
  | some k => decide (k.visibility > 1 / 2)
  | none => false

/-- Joint position sample of the linear-velocity series
(`BiomechanicsExtractor._segment_velocity`, `biomechanics.py` lines 536-541):
the position when `visibility > 0.5`, missing otherwise. -/
def segmentVelocitySample (j : Option Keypoint) : Option (ℚ × ℚ) :=
  match j with
  | some k => if k.visibility > 1 / 2 then some (k.x, k.y) else none
  | none => none

/-! ## Feature-extraction skeleton (`biomechanics.py`) -/

/-- A pose frame as seen by the extraction skeleton; only the frame number
participates in the segment filter. -/
structure FramePoseB where
  frame_number : ℕ

/-- Poses restricted to the segment window (`biomechanics.py` lines 62-66). -/
def shotPosesOf (poses : List FramePoseB) (segment : ShotSegment) : List FramePoseB :=
  poses.filter fun p =>
    decide (segment.start_frame ≤ p.frame_number) && decide (p.frame_number ≤ segment.end_frame)

/-- Skeleton of `BiomechanicsExtractor.extract_all_features`
(`biomechanics.py` lines 47-115): filter the poses to the segment window,
give up (empty vector) below 5 poses, then assemble the feature vector from
the seven per-feature computations (passed as parameters, since their
numeric content is transcendental geometry; every claim about the skeleton
holds for arbitrary computations) and the unconditional
`swing_duration_ms` pass-through. -/
def extractAllFeatures (poses : List FramePoseB) (segment : ShotSegment)
    (computeShoulderRotation computeElbowExtension : List FramePoseB → Option (ℚ × ℚ))
    (computeWristSnapTiming : List FramePoseB → Option ℚ)
    (computeHipShoulderSeparation computeKneeFlexion computeComVerticalDisplacement :
      List FramePoseB → Option ℚ)
    (computeKineticDelays : List FramePoseB → Option (List (String × ℚ))) :
    List (String × ℚ) :=
  if (shotPosesOf poses segment).length < 5 then []
  else
    (match computeShoulderRotation (shotPosesOf poses segment) with
      | some sr => [("shoulder_rotation_angle", sr.1), ("shoulder_angular_velocity", sr.2)]
      | none => [])
    ++ (match computeElbowExtension (shotPosesOf poses segment) with
      | some ee => [("elbow_extension_angle", ee.1), ("elbow_angular_velocity", ee.2)]
      | none => [])
    ++ (match computeWristSnapTiming (shotPosesOf poses segment) with
      | some wt => [("wrist_snap_timing", wt)]
      | none => [])
    ++ (match computeHipShoulderSeparation (shotPosesOf poses segment) with
      | some hs => [("hip_shoulder_separation", hs)]
      | none => [])
    ++ (match computeKneeFlexion (shotPosesOf poses segment) with
      | some kf => [("knee_flexion_angle", kf)]
      | none => [])
    ++ (match computeComVerticalDisplacement (shotPosesOf poses segment) with
      | some cd => [("com_vertical_displacement", cd)]
      | none => [])
    ++ kineticChainFeatures (computeKineticDelays (shotPosesOf poses segment))
    ++ [("swing_duration_ms", segment.duration_ms)]

/-! ## Concrete scenario inputs -/

/-- Knee-angle signal of spec scenario A: a 90-frame piecewise-linear trough,
descending from 130° to 90° at frame 20 (2° per frame), ascending back to
150° at frame 50, then flat. -/
def kneeScenarioA : List ℚ := (List.range 90).map fun i =>
  if i ≤ 20 then 130 - 2 * (i : ℚ) else if i ≤ 50 then 50 + 2 * (i : ℚ) else 150

/-- Wrist-speed signal of spec scenario A: flat at 10 with a sharp peak of 60
at frame 50 (shoulders of 35 at frames 49 and 51). -/
def wristScenarioA : List ℚ := (List.range 90).map fun i =>
  if i = 49 then 35 else if i = 50 then 60 else if i = 51 then 35 else 10

/-- Small 20-frame knee-angle signal: trough of 90° at frame 3, ascent to
150° at frame 9, then flat. -/
def kneeScenarioB : List ℚ :=
  [120, 110, 100, 90, 100, 110, 120, 130, 140, 150,
   150, 150, 150, 150, 150, 150, 150, 150, 150, 150]

/-- Small 20-frame wrist-speed signal: flat at 10 with a sharp peak of 60 at
frame 10. -/
def wristScenarioB : List ℚ :=
  [10, 10, 10, 10, 10, 10, 10, 10, 10, 35, 60, 35, 10, 10, 10, 10, 10, 10, 10, 10]

-- THEOREM_SECTION_MARKER

attribute [local semireducible] Rat.add Rat.sub Rat.mul Rat.inv Rat.ofScientific

lemma weightOf_pos (s : String) : 0 < weightOf s := by
  unfold weightOf; split <;> norm_num

lemma toleranceOf_pos (s : String) : 0 < toleranceOf s := by
  unfold toleranceOf; split <;> norm_num

lemma pyRound_nonneg {q : ℚ} (h : 0 ≤ q) : 0 ≤ pyRound q := by
  unfold pyRound
  have hf : (0 : ℤ) ≤ ⌊q⌋ := Int.le_floor.mpr (by exact_mod_cast h)
  split_ifs <;> omega

lemma pyRound_le {q b : ℚ} (hq : q ≤ b) (hb : b = (⌊b⌋ : ℚ)) : pyRound q ≤ ⌊b⌋ := by
  unfold pyRound
  have hfle : ⌊q⌋ ≤ ⌊b⌋ := Int.floor_le_floor hq
  rcases eq_or_lt_of_le hfle with heq | hlt
  · have hr : q - (⌊q⌋ : ℚ) = 0 := by
      have h1 : (⌊q⌋ : ℚ) ≤ q := Int.floor_le q
      have h2 : q ≤ (⌊q⌋ : ℚ) := by rw [heq]; rw [hb] at hq; exact_mod_cast hq
      linarith
    rw [hr]
    norm_num
    exact hfle
  · split_ifs <;> omega

lemma pyRound_exact {q : ℚ} (h : q = (⌊q⌋ : ℚ)) : pyRound q = ⌊q⌋ := by
  unfold pyRound
  rw [show q - (⌊q⌋ : ℚ) = 0 by linarith]
  norm_num

lemma sum_map_mul_const (l : List BiomechanicsMetric) (f : BiomechanicsMetric → ℚ) (c : ℚ) :
    (l.map fun m => f m * c).sum = (l.map f).sum * c := by
  induction l with
  | nil => simp
  | cons a t ih => simp [ih, add_mul]

lemma featureScore_bounds (m : BiomechanicsMetric) :
    0 ≤ 100 * (1 - min (|m.difference| / (toleranceOf m.name * 2)) 1)
    ∧ 100 * (1 - min (|m.difference| / (toleranceOf m.name * 2)) 1) ≤ 100 := by
  have htol := toleranceOf_pos m.name
  have h1 : min (|m.difference| / (toleranceOf m.name * 2)) 1 ≤ 1 := min_le_right _ _
  have h0 : 0 ≤ min (|m.difference| / (toleranceOf m.name * 2)) 1 := by
    apply le_min _ (by norm_num)
    positivity
  constructor <;> nlinarith

lemma totalWeight_pos {metrics : List BiomechanicsMetric} (h : metrics ≠ []) :
    0 < (metrics.map fun m => weightOf m.name).sum := by
  apply List.sum_pos
  · intro a ha
    obtain ⟨m, _, rfl⟩ := List.mem_map.mp ha
    exact weightOf_pos m.name
  · simpa using h

lemma roundTo1_bounds {q : ℚ} (h0 : 0 ≤ q) (h100 : q ≤ 100) :
    0 ≤ roundTo1 q ∧ roundTo1 q ≤ 100 := by
  unfold roundTo1
  constructor
  · have := pyRound_nonneg (q := q * 10) (by nlinarith)
    positivity
  · have hb : (1000 : ℚ) = ((⌊(1000 : ℚ)⌋ : ℤ) : ℚ) := by norm_num
    have := pyRound_le (q := q * 10) (b := 1000) (by nlinarith) hb
    have h1000 : ⌊(1000 : ℚ)⌋ = 1000 := by norm_num
    rw [h1000] at this
    have : (pyRound (q * 10) : ℚ) ≤ 1000 := by exact_mod_cast this
    linarith

/-- C4: severity classification is a direction-aware tolerance-band scheme:
LOW inside the tolerance, LOW/MEDIUM in the second band depending on whether
the deviation is favorable, MEDIUM/HIGH outside twice the tolerance, and a
favorable deviation (`higher_is_better=true` with positive difference) is
never graded HIGH. -/
theorem c4_severity_classification (d t : ℚ) (hib : Option Bool) :
    (|d| ≤ t → classifySeverity d t hib = .low)
    ∧ (t < |d| → |d| ≤ 2 * t →
        (((hib = some true ∧ 0 < d) ∨ (hib = some false ∧ d < 0)) →
            classifySeverity d t hib = .low)
        ∧ (¬((hib = some true ∧ 0 < d) ∨ (hib = some false ∧ d < 0)) →
            classifySeverity d t hib = .medium))
    ∧ (2 * t < |d| →
        (((hib = some true ∧ 0 < d) ∨ (hib = some false ∧ d < 0)) →
            classifySeverity d t hib = .medium)
        ∧ (¬((hib = some true ∧ 0 < d) ∨ (hib = some false ∧ d < 0)) →
            classifySeverity d t hib = .high))
    ∧ (hib = some true → 0 < d → classifySeverity d t hib ≠ .high) := by
  unfold classifySeverity
  refine ⟨fun h => by rw [if_pos h], fun h1 h2 => ⟨fun hfav => ?_, fun hnfav => ?_⟩,
    fun h3 => ⟨fun hfav => ?_, fun hnfav => ?_⟩, fun htrue hd => ?_⟩
  · rw [if_neg (by linarith), if_pos (by linarith)]
    rcases hfav with ⟨ht, hd⟩ | ⟨hf, hd⟩
    · rw [if_pos ⟨ht, hd⟩]
    · rw [if_neg (by simp [hf]), if_pos ⟨hf, hd⟩]
  · rw [if_neg (by linarith), if_pos (by linarith),
      if_neg (fun hc => hnfav (Or.inl hc)), if_neg (fun hc => hnfav (Or.inr hc))]
  · have habs := abs_nonneg d
    rw [if_neg (by linarith), if_neg (by linarith)]
    rcases hfav with ⟨ht, hd⟩ | ⟨hf, hd⟩
    · rw [if_pos ⟨ht, hd⟩]
    · rw [if_neg (by simp [hf]), if_pos ⟨hf, hd⟩]
  · have habs := abs_nonneg d
    rw [if_neg (by linarith), if_neg (by linarith),
      if_neg (fun hc => hnfav (Or.inl hc)), if_neg (fun hc => hnfav (Or.inr hc))]
  · split_ifs with g1 g2 g3 g4 g5 <;> simp_all

/-- Witness for C4 at a concrete input: difference 1, tolerance 2, unset flag. -/
theorem c4_severity_classification_witness :
    classifySeverity 1 2 none = .low :=
  (c4_severity_classification 1 2 none).1 (by norm_num)

/-- C5: the similarity score equals the spec's weighted mean of tolerance-band
feature scores (`specSimilarityScore`), returns 0 on the empty list, always
lies in `[0, 100]`, and equals exactly 100 when every metric's difference
is zero (and at least one metric is present). -/
theorem c5_similarity_score (metrics : List BiomechanicsMetric) :
    computeSimilarityScore metrics = specSimilarityScore metrics
    ∧ computeSimilarityScore [] = 0
    ∧ (0 ≤ computeSimilarityScore metrics ∧ computeSimilarityScore metrics ≤ 100)
    ∧ (metrics ≠ [] → (∀ m ∈ metrics, m.difference = 0) →
        computeSimilarityScore metrics = 100) := by
  by_cases hemp : metrics = []
  · subst hemp
    refine ⟨rfl, rfl, by norm_num [computeSimilarityScore], fun h => absurd rfl h⟩
  · have htw := totalWeight_pos hemp
    have hws0 : 0 ≤ (metrics.map fun m =>
        weightOf m.name *
          (100 * (1 - min (|m.difference| / (toleranceOf m.name * 2)) 1))).sum := by
      apply List.sum_nonneg
      intro a ha
      obtain ⟨m, _, rfl⟩ := List.mem_map.mp ha
      exact mul_nonneg (le_of_lt (weightOf_pos m.name)) (featureScore_bounds m).1
    have hws100 : (metrics.map fun m =>
        weightOf m.name *
          (100 * (1 - min (|m.difference| / (toleranceOf m.name * 2)) 1))).sum
        ≤ (metrics.map fun m => weightOf m.name).sum * 100 := by
      rw [← sum_map_mul_const metrics (fun m => weightOf m.name) 100]
      apply List.sum_le_sum
      intro m _
      have := (featureScore_bounds m).2
      have hw := weightOf_pos m.name
      nlinarith
    have hcompute : computeSimilarityScore metrics =
        roundTo1 (((metrics.map fun m =>
          weightOf m.name *
            (100 * (1 - min (|m.difference| / (toleranceOf m.name * 2)) 1))).sum)
        / (metrics.map fun m => weightOf m.name).sum) := by
      unfold computeSimilarityScore
      rw [if_neg hemp, if_neg (by linarith)]
    refine ⟨?_, rfl, ?_, ?_⟩
    · have hfuneq : (metrics.map fun m =>
          weightOf m.name *
            (100 * (1 - min (|m.difference| / (toleranceOf m.name * 2)) 1)))
          = (metrics.map fun m =>
          weightOf m.name *
            (100 * (1 - min (|m.difference| / (2 * toleranceOf m.name)) 1))) := by
        apply List.map_congr_left
        intro m _
        rw [mul_comm (toleranceOf m.name) 2]
      rw [hcompute]
      unfold specSimilarityScore
      rw [if_neg hemp, hfuneq]
    · rw [hcompute]
      have hdiv0 : 0 ≤ (metrics.map fun m =>
          weightOf m.name *
            (100 * (1 - min (|m.difference| / (toleranceOf m.name * 2)) 1))).sum
          / (metrics.map fun m => weightOf m.name).sum := by positivity
      have hdiv100 : (metrics.map fun m =>
          weightOf m.name *
            (100 * (1 - min (|m.difference| / (toleranceOf m.name * 2)) 1))).sum
          / (metrics.map fun m => weightOf m.name).sum ≤ 100 := by
        rw [div_le_iff₀ htw]
        linarith
      exact roundTo1_bounds hdiv0 hdiv100
    · intro _ hzero
      rw [hcompute]
      have hmap : (metrics.map fun m =>
          weightOf m.name *
            (100 * (1 - min (|m.difference| / (toleranceOf m.name * 2)) 1))).sum
          = (metrics.map fun m => weightOf m.name).sum * 100 := by
        rw [← sum_map_mul_const metrics (fun m => weightOf m.name) 100]
        congr 1
        apply List.map_congr_left
        intro m hm
        rw [hzero m hm]
        norm_num
      have hdiv : (metrics.map fun m => weightOf m.name).sum * 100
          / (metrics.map fun m => weightOf m.name).sum = 100 := by
        field_simp
      rw [hmap, hdiv]
      unfold roundTo1
      rw [show pyRound ((100 : ℚ) * 10) = 1000 by
        rw [show ((100 : ℚ) * 10) = ((1000 : ℤ) : ℚ) by norm_num]
        rw [pyRound_exact (by norm_num)]
        norm_num]
      norm_num

/-- Witness for C5 at a concrete input: one perfectly matching metric scores 100. -/
theorem c5_similarity_score_witness :
    computeSimilarityScore
      [⟨"knee_flexion_angle", 120, 120, 0, 0, .low⟩] = 100 :=
  (c5_similarity_score [⟨"knee_flexion_angle", 120, 120, 0, 0, .low⟩]).2.2.2
    (by simp) (by intro m hm; simp at hm; rw [hm])

lemma savgolFilter3_id3 (a b c : ℚ) : savgolFilter 3 [a, b, c] = [a, b, c] := by
  show (List.range 3).map _ = _
  simp only [List.range_succ, List.range_zero, List.nil_append, List.cons_append,
    List.map_cons, List.map_nil, savgolFilter, polyfit2eval]
  norm_num
  refine ⟨by ring, by ring, by ring⟩

lemma savgolFilter3_id4 (a b c d : ℚ) : savgolFilter 3 [a, b, c, d] = [a, b, c, d] := by
  show (List.range 4).map _ = _
  simp only [List.range_succ, List.range_zero, List.nil_append, List.cons_append,
    List.map_cons, List.map_nil, savgolFilter, polyfit2eval]
  norm_num
  refine ⟨by ring, by ring, by ring, by ring⟩

/-- C8 counterexample: on an all-missing series the segmenter's interpolation
routine returns the series unchanged (still all-missing), not a series of
zeros. -/
theorem c8_counterexample :
    interpolateNansSeg [none] = [none] ∧ interpolateNansSeg [none] ≠ [some 0] := by
  constructor <;> decide

/-- C8 amended: both interpolation routines are total, length-preserving pure
functions; on an all-missing series the extractor's routine returns a series
of zeros while the segmenter's routine returns the series unchanged. -/
theorem c8_amended_interpolation (xs : List (Option ℚ)) :
    (interpolateNansSeg xs).length = xs.length
    ∧ (interpolateNansBio xs).length = xs.length
    ∧ ((∀ o ∈ xs, o = none) →
        interpolateNansBio xs = List.replicate xs.length 0
        ∧ interpolateNansSeg xs = xs) := by
  have hall : (∀ o ∈ xs, o = none) → (xs.all fun o => o.isNone) = true := by
    intro h
    rw [List.all_eq_true]
    intro o ho
    rw [h o ho]
    rfl
  refine ⟨?_, ?_, fun h => ⟨?_, ?_⟩⟩
  · unfold interpolateNansSeg
    split_ifs <;> simp
  · unfold interpolateNansBio
    split_ifs <;> simp
  · unfold interpolateNansBio
    rw [if_pos (hall h)]
  · unfold interpolateNansSeg
    rw [if_pos (hall h)]

/-- Witness for C8 amended at a concrete all-missing series of length 2. -/
theorem c8_amended_interpolation_witness :
    interpolateNansBio [none, none] = List.replicate 2 0
    ∧ interpolateNansSeg [none, none] = [none, none] := by
  have h := (c8_amended_interpolation [none, none]).2.2 (by decide)
  simpa using h

/-- C9: on every series shorter than the configured window 5, both smoothing
routines agree with the spec's shrink-to-odd-window smoother (which below
length 5 reduces to the window-3 degree-2 fit, an exact interpolation), and
preserve the series length. -/
theorem c9_short_series_smoothing (xs : List ℚ) (h : xs.length < 5) :
    smoothSignal xs = specShrinkSmooth xs
    ∧ smoothBio xs 5 = specShrinkSmooth xs
    ∧ (smoothSignal xs).length = xs.length := by
  have hseg : smoothSignal xs = xs := by
    unfold smoothSignal
    rw [if_pos h]
  have hbio : smoothBio xs 5 = xs := by
    unfold smoothBio
    rw [if_pos h]
  have hspec : specShrinkSmooth xs = xs := by
    rcases xs with _ | ⟨a, _ | ⟨b, _ | ⟨c, _ | ⟨d, _ | ⟨e, t⟩⟩⟩⟩⟩
    · rfl
    · rfl
    · rfl
    · show specShrinkSmooth [a, b, c] = _
      unfold specShrinkSmooth shrinkOdd
      norm_num [savgolFilter3_id3]
    · show specShrinkSmooth [a, b, c, d] = _
      unfold specShrinkSmooth shrinkOdd
      norm_num [savgolFilter3_id4]
    · exfalso
      simp at h
      omega
  rw [hseg, hbio, hspec]
  exact ⟨rfl, rfl, rfl⟩

/-- Witness for C9 at a concrete length-3 series. -/
theorem c9_short_series_smoothing_witness :
    smoothSignal [1, 2, 4] = specShrinkSmooth [1, 2, 4] :=
  (c9_short_series_smoothing [1, 2, 4] (by norm_num)).1

lemma varianceQ_nonneg (l : List ℚ) : 0 ≤ varianceQ l := by
  unfold varianceQ
  apply div_nonneg _ (by positivity)
  apply List.sum_nonneg
  intro a ha
  obtain ⟨v, _, rfl⟩ := List.mem_map.mp ha
  positivity

lemma wristQual_iff_sqrt (region : List ℚ) (p : ℚ) :
    wristQual region p = true ↔
      Real.sqrt ((varianceQ region : ℝ)) * (1 / 2) ≤ (p : ℝ) := by
  unfold wristQual
  rw [decide_eq_true_iff]
  have hv : (0 : ℝ) ≤ (varianceQ region : ℝ) := by
    exact_mod_cast varianceQ_nonneg region
  constructor
  · rintro ⟨hp, hle⟩
    have h2p : (0 : ℝ) ≤ 2 * (p : ℝ) := by
      have : (0 : ℝ) ≤ (p : ℝ) := by exact_mod_cast hp
      linarith
    have hle2 : (varianceQ region : ℝ) ≤ (2 * (p : ℝ)) ^ 2 := by
      have : (varianceQ region : ℝ) ≤ 4 * (p : ℝ) ^ 2 := by exact_mod_cast hle
      nlinarith
    have := Real.sqrt_le_sqrt hle2
    rw [Real.sqrt_sq h2p] at this
    linarith
  · intro h
    have hsq : (0 : ℝ) ≤ Real.sqrt (varianceQ region : ℝ) := Real.sqrt_nonneg _
    have hp : (0 : ℝ) ≤ (p : ℝ) := by linarith
    have h2 : Real.sqrt (varianceQ region : ℝ) ≤ 2 * (p : ℝ) := by linarith
    have := Real.sq_sqrt hv
    have hsqle : (varianceQ region : ℝ) ≤ (2 * (p : ℝ)) ^ 2 := by
      nlinarith [Real.sq_sqrt hv, Real.sqrt_nonneg ((varianceQ region : ℝ))]
    constructor
    · exact_mod_cast hp
    · have : (varianceQ region : ℝ) ≤ 4 * (p : ℝ) ^ 2 := by nlinarith
      exact_mod_cast this

set_option maxRecDepth 100000 in
/-- C1: on a concrete realization of spec scenario A — a 30 fps, 90-frame
stream whose knee-angle signal is a smooth trough bottoming at frame 20
(value exactly 90, unique strict minimum, at least 100 everywhere outside
frames 16-24) and whose wrist-speed signal peaks sharply (uniquely) at frame
50 — the segmenter returns `start_frame 20`, `contact_frame 50`,
`end_frame 53`, `total_frames 30`, `duration_ms 1000`. -/
theorem c1_scenario_a :
    (kneeScenarioA.length = 90 ∧ wristScenarioA.length = 90
      ∧ kneeScenarioA.getD 20 0 = 90
      ∧ ((List.range 90).all fun i =>
          decide (15 < i ∧ i < 25) || decide (100 ≤ kneeScenarioA.getD i 0)) = true
      ∧ ((List.range 90).all fun i =>
          decide (i = 20) || decide (kneeScenarioA.getD 20 0 < kneeScenarioA.getD i 0)) = true
      ∧ wristScenarioA.getD 50 0 = 60
      ∧ ((List.range 90).all fun i =>
          decide (i = 50) || decide (wristScenarioA.getD i 0 < wristScenarioA.getD 50 0)) = true)
    ∧ segmentShotSig 90 30 (some kneeScenarioA) (some wristScenarioA)
        = some { start_frame := 20, contact_frame := 50, end_frame := 53,
                 total_frames := 30, duration_ms := 1000 } := by
  decide

set_option maxRecDepth 100000 in
/-- C2 counterexample: at 15 fps the code truncates `int(fps * 0.1)` to 1, so
a successful segmentation has `end_frame = contact_frame + 1 = 11`, while the
claim's formula `min(contact_frame + round(0.1·fps), last_frame_index)`
demands `min(10 + 2, 19) = 12`. -/
theorem c2_counterexample :
    segmentShotSig 20 15 (some kneeScenarioB) (some wristScenarioB)
      = some { start_frame := 3, contact_frame := 10, end_frame := 11,
               total_frames := 7, duration_ms := 1400 / 3 }
    ∧ ¬((11 : ℕ) = min (10 + (pyRound ((15 : ℚ) / 10)).toNat) (20 - 1)) := by
  decide

/-- C6 counterexample: with both rotational series missing (so the
`hip_shoulder` delay cannot be computed) but the elbow and wrist series
present, the feature vector still carries the key `hip_shoulder_delay`,
zero-filled — the claim says the key is present only when both of its
constituent series exist and is never zero-filled. -/
theorem c6_counterexample :
    (kineticChainFeatures
        (computeKineticChainDelays none none (some [0, 1, 0]) (some [0, 1, 0]) 30)).lookup
      "hip_shoulder_delay" = some 0 := by
  decide

lemma strBeq1 : (("hip_shoulder" : String) == "shoulder_elbow") = false := by decide

lemma strBeq2 : (("hip_shoulder" : String) == "elbow_wrist") = false := by decide

lemma strBeq3 : (("shoulder_elbow" : String) == "hip_shoulder") = false := by decide

lemma strBeq4 : (("shoulder_elbow" : String) == "elbow_wrist") = false := by decide

lemma strBeq5 : (("elbow_wrist" : String) == "hip_shoulder") = false := by decide

lemma strBeq6 : (("elbow_wrist" : String) == "shoulder_elbow") = false := by decide

lemma strBeq7 : (("hip_shoulder_delay" : String) == "shoulder_elbow_delay") = false := by decide

lemma strBeq8 : (("hip_shoulder_delay" : String) == "elbow_wrist_delay") = false := by decide

lemma strBeq9 : (("shoulder_elbow_delay" : String) == "hip_shoulder_delay") = false := by decide

lemma strBeq10 : (("shoulder_elbow_delay" : String) == "elbow_wrist_delay") = false := by decide

lemma strBeq11 : (("elbow_wrist_delay" : String) == "hip_shoulder_delay") = false := by decide

lemma strBeq12 : (("elbow_wrist_delay" : String) == "shoulder_elbow_delay") = false := by decide

set_option maxHeartbeats 2000000 in
/-- C6 amended: the three delay keys are present as a block exactly when at
least one constituent pair of series exists; a key whose own pair is
incomplete is then zero-filled (`dict.get(·, 0)`). -/
theorem c6_amended_delay_features (hipRot shoulderRot elbowVel wristVel : Option (List ℚ))
    (fps : ℚ) :
    (kineticChainFeatures (computeKineticChainDelays hipRot shoulderRot elbowVel wristVel fps) = []
      ↔ ¬((hipRot.isSome = true ∧ shoulderRot.isSome = true)
          ∨ (shoulderRot.isSome = true ∧ elbowVel.isSome = true)
          ∨ (elbowVel.isSome = true ∧ wristVel.isSome = true)))
    ∧ (kineticChainFeatures (computeKineticChainDelays hipRot shoulderRot elbowVel wristVel fps)
          ≠ [] →
        (kineticChainFeatures
            (computeKineticChainDelays hipRot shoulderRot elbowVel wristVel fps)).map Prod.fst
          = ["hip_shoulder_delay", "shoulder_elbow_delay", "elbow_wrist_delay"])
    ∧ (¬(hipRot.isSome = true ∧ shoulderRot.isSome = true) →
        (kineticChainFeatures
            (computeKineticChainDelays hipRot shoulderRot elbowVel wristVel fps)).lookup
          "hip_shoulder_delay" = none
        ∨ (kineticChainFeatures
            (computeKineticChainDelays hipRot shoulderRot elbowVel wristVel fps)).lookup
          "hip_shoulder_delay" = some 0)
    ∧ (¬(shoulderRot.isSome = true ∧ elbowVel.isSome = true) →
        (kineticChainFeatures
            (computeKineticChainDelays hipRot shoulderRot elbowVel wristVel fps)).lookup
          "shoulder_elbow_delay" = none
        ∨ (kineticChainFeatures
            (computeKineticChainDelays hipRot shoulderRot elbowVel wristVel fps)).lookup
          "shoulder_elbow_delay" = some 0)
    ∧ (¬(elbowVel.isSome = true ∧ wristVel.isSome = true) →
        (kineticChainFeatures
            (computeKineticChainDelays hipRot shoulderRot elbowVel wristVel fps)).lookup
          "elbow_wrist_delay" = none
        ∨ (kineticChainFeatures
            (computeKineticChainDelays hipRot shoulderRot elbowVel wristVel fps)).lookup
          "elbow_wrist_delay" = some 0) := by
  rcases hipRot with _ | h <;> rcases shoulderRot with _ | s <;>
    rcases elbowVel with _ | e <;> rcases wristVel with _ | w <;>
    simp [computeKineticChainDelays, kineticChainDelayList, delayEntry, kineticChainFeatures,
      lookupD, List.lookup_cons, strBeq1, strBeq2, strBeq3, strBeq4, strBeq5, strBeq6,
      strBeq7, strBeq8, strBeq9, strBeq10, strBeq11, strBeq12]

/-- Witness for C6 amended: hip and shoulder series present, elbow and wrist
missing — the `shoulder_elbow_delay` key is absent or zero-filled. -/
theorem c6_amended_delay_features_witness :
    (kineticChainFeatures
        (computeKineticChainDelays (some [0, 1]) (some [0, 2]) none none 30)).lookup
      "shoulder_elbow_delay" = none
    ∨ (kineticChainFeatures
        (computeKineticChainDelays (some [0, 1]) (some [0, 2]) none none 30)).lookup
      "shoulder_elbow_delay" = some 0 :=
  (c6_amended_delay_features (some [0, 1]) (some [0, 2]) none none 30).2.2.2.1 (by simp)

/-- C7 counterexample: a keypoint with visibility exactly 0.5 is treated as
absent by the wrist-speed, centre-of-mass, wrist-snap and joint-velocity
signal builders (their guards are strict `> 0.5`), while the knee-flexion
guard accepts it — the claim says visibility exactly 0.5 is valid in every
signal-building computation. -/
theorem c7_counterexample :
    wristSampleSeg (some ⟨0, 0, 0, 1 / 2⟩) = none
    ∧ kneeSampleValid (some ⟨0, 0, 0, 1 / 2⟩) (some ⟨0, 0, 0, 1 / 2⟩)
        (some ⟨0, 0, 0, 1 / 2⟩) = true
    ∧ comSampleBio (some ⟨0, 0, 0, 1 / 2⟩) (some ⟨0, 0, 0, 1 / 2⟩) = none
    ∧ snapSampleValid (some ⟨0, 0, 0, 1 / 2⟩) = false
    ∧ segmentVelocitySample (some ⟨0, 0, 0, 1 / 2⟩) = none := by
  refine ⟨?_, ?_, ?_, ?_, ?_⟩ <;> decide

/-- C7 amended: the angle-based guards (knee flexion) accept a keypoint
exactly when `visibility ≥ 0.5`, while the wrist-speed, centre-of-mass,
wrist-snap and joint-linear-velocity guards require strictly
`visibility > 0.5`. -/
theorem c7_amended_visibility_threshold (k : Keypoint) :
    (kneeSampleValid (some k) (some k) (some k) = true ↔ 1 / 2 ≤ k.visibility)
    ∧ ((wristSampleSeg (some k)).isSome = true ↔ 1 / 2 < k.visibility)
    ∧ ((comSampleBio (some k) (some k)).isSome = true ↔ 1 / 2 < k.visibility)
    ∧ (snapSampleValid (some k) = true ↔ 1 / 2 < k.visibility)
    ∧ ((segmentVelocitySample (some k)).isSome = true ↔ 1 / 2 < k.visibility) := by
  unfold kneeSampleValid wristSampleSeg comSampleBio snapSampleValid segmentVelocitySample
  refine ⟨?_, ?_, ?_, ?_, ?_⟩ <;> simp [min_self] <;> split_ifs with hv <;>
    simp_all <;> linarith

/-- C10: the extraction skeleton returns the empty feature vector exactly
when fewer than 5 poses fall inside the segment window; otherwise (for
arbitrary per-feature computations, in particular all-failing ones) the
result is nonempty and carries `swing_duration_ms` equal to the segment's
`duration_ms`. -/
theorem c10_extract_gate (poses : List FramePoseB) (segment : ShotSegment)
    (f1 f2 : List FramePoseB → Option (ℚ × ℚ))
    (f3 : List FramePoseB → Option ℚ)
    (f4 f5 f6 : List FramePoseB → Option ℚ)
    (f7 : List FramePoseB → Option (List (String × ℚ))) :
    (extractAllFeatures poses segment f1 f2 f3 f4 f5 f6 f7 = []
      ↔ (shotPosesOf poses segment).length < 5)
    ∧ (¬(shotPosesOf poses segment).length < 5 →
        ("swing_duration_ms", segment.duration_ms)
            ∈ extractAllFeatures poses segment f1 f2 f3 f4 f5 f6 f7
          ∧ extractAllFeatures poses segment f1 f2 f3 f4 f5 f6 f7 ≠ []) := by
  unfold extractAllFeatures
  split_ifs with h
  · exact ⟨iff_of_true rfl h, fun hc => absurd h hc⟩
  · have hmem : ("swing_duration_ms", segment.duration_ms)
        ∈ (match f1 (shotPosesOf poses segment) with
          | some sr => [("shoulder_rotation_angle", sr.1), ("shoulder_angular_velocity", sr.2)]
          | none => [])
        ++ (match f2 (shotPosesOf poses segment) with
          | some ee => [("elbow_extension_angle", ee.1), ("elbow_angular_velocity", ee.2)]
          | none => [])
        ++ (match f3 (shotPosesOf poses segment) with
          | some wt => [("wrist_snap_timing", wt)]
          | none => [])
        ++ (match f4 (shotPosesOf poses segment) with
          | some hs => [("hip_shoulder_separation", hs)]
          | none => [])
        ++ (match f5 (shotPosesOf poses segment) with
          | some kf => [("knee_flexion_angle", kf)]
          | none => [])
        ++ (match f6 (shotPosesOf poses segment) with
          | some cd => [("com_vertical_displacement", cd)]
          | none => [])
        ++ kineticChainFeatures (f7 (shotPosesOf poses segment))
        ++ [("swing_duration_ms", segment.duration_ms)] := by
      simp
    exact ⟨iff_of_false (List.ne_nil_of_mem hmem) h, fun _ => ⟨hmem, List.ne_nil_of_mem hmem⟩⟩

/-- Witness for C10 at a concrete input: 5 poses inside the window and
all-failing feature computations still yield the swing-duration feature. -/
theorem c10_extract_gate_witness :
    ("swing_duration_ms", (123 : ℚ))
      ∈ extractAllFeatures [⟨0⟩, ⟨1⟩, ⟨2⟩, ⟨3⟩, ⟨4⟩]
        { start_frame := 0, contact_frame := 1, end_frame := 4,
          total_frames := 1, duration_ms := 123 }
        (fun _ => none) (fun _ => none) (fun _ => none) (fun _ => none)
        (fun _ => none) (fun _ => none) (fun _ => none) :=
  ((c10_extract_gate [⟨0⟩, ⟨1⟩, ⟨2⟩, ⟨3⟩, ⟨4⟩]
    { start_frame := 0, contact_frame := 1, end_frame := 4,
      total_frames := 1, duration_ms := 123 }
    (fun _ => none) (fun _ => none) (fun _ => none) (fun _ => none)
    (fun _ => none) (fun _ => none) (fun _ => none)).2 (by decide)).1

lemma savgolFilter_length (w : ℕ) (x : List ℚ) : (savgolFilter w x).length = x.length := by
  unfold savgolFilter
  rw [List.length_map, List.length_range]

lemma smoothSignal_length (x : List ℚ) : (smoothSignal x).length = x.length := by
  unfold smoothSignal
  split_ifs <;> simp [savgolFilter_length]

lemma argmaxList_spec {l : List ℚ} (h : l ≠ []) :
    argmaxList l < l.length ∧ ∀ i, i < l.length → l.getD i 0 ≤ l.getD (argmaxList l) 0 := by
  obtain ⟨m, hm⟩ : ∃ m : ℚ, l.maximum = (m : WithBot ℚ) := by
    cases hmx : l.maximum with
    | bot => exact absurd (List.maximum_eq_bot.mp hmx) h
    | coe m => exact ⟨m, rfl⟩
  have hmem : m ∈ l := (List.maximum_eq_coe_iff.mp hm).1
  have hub : ∀ a ∈ l, a ≤ m := (List.maximum_eq_coe_iff.mp hm).2
  have hidx : argmaxList l = l.indexOf m := by
    simp only [argmaxList, hm, WithBot.recBotCoe_coe]
  have hlt : l.indexOf m < l.length := List.indexOf_lt_length.mpr hmem
  have hval : l.getD (l.indexOf m) 0 = m := by
    rw [List.getD_eq_getElem _ _ hlt]
    exact List.getElem_indexOf hlt
  refine ⟨hidx ▸ hlt, fun i hi => ?_⟩
  rw [hidx, hval, List.getD_eq_getElem _ _ hi]
  exact hub _ (List.getElem_mem hi)

lemma argminList_spec {l : List ℚ} (h : l ≠ []) :
    argminList l < l.length ∧ ∀ i, i < l.length → l.getD (argminList l) 0 ≤ l.getD i 0 := by
  obtain ⟨m, hm⟩ : ∃ m : ℚ, l.minimum = (m : WithTop ℚ) := by
    cases hmx : l.minimum with
    | top => exact absurd (List.minimum_eq_top.mp hmx) h
    | coe m => exact ⟨m, rfl⟩
  have hmem : m ∈ l := (List.minimum_eq_coe_iff.mp hm).1
  have hlb : ∀ a ∈ l, m ≤ a := (List.minimum_eq_coe_iff.mp hm).2
  have hidx : argminList l = l.indexOf m := by
    simp only [argminList, hm, WithTop.recTopCoe_coe]
  have hlt : l.indexOf m < l.length := List.indexOf_lt_length.mpr hmem
  have hval : l.getD (l.indexOf m) 0 = m := by
    rw [List.getD_eq_getElem _ _ hlt]
    exact List.getElem_indexOf hlt
  refine ⟨hidx ▸ hlt, fun i hi => ?_⟩
  rw [hidx, hval, List.getD_eq_getElem _ _ hi]
  exact hlb _ (List.getElem_mem hi)

lemma aheadIdxFuel_ge (x : List ℚ) (v : ℚ) :
    ∀ fuel j, j ≤ aheadIdxFuel x v fuel j := by
  intro fuel
  induction fuel with
  | zero => intro j; exact Nat.le_refl j
  | succ n ih =>
    intro j
    unfold aheadIdxFuel
    split_ifs with hc
    · exact Nat.le_trans (Nat.le_succ j) (ih (j + 1))
    · exact Nat.le_refl j

lemma aheadIdxFuel_le (x : List ℚ) (v : ℚ) :
    ∀ fuel j, aheadIdxFuel x v fuel j ≤ j + fuel := by
  intro fuel
  induction fuel with
  | zero => intro j; exact Nat.le_refl j
  | succ n ih =>
    intro j
    unfold aheadIdxFuel
    split_ifs with hc
    · exact Nat.le_trans (ih (j + 1)) (by omega)
    · omega

lemma localMaxima_bounds {x : List ℚ} {p : ℕ} (hp : p ∈ localMaxima x) :
    1 ≤ p ∧ p + 1 < x.length := by
  unfold localMaxima at hp
  rw [List.mem_filterMap] at hp
  obtain ⟨i, hi, hfi⟩ := hp
  rw [List.mem_range] at hi
  by_cases hc : 1 ≤ i ∧ i < x.length - 1 ∧ x.getD (i - 1) 0 < x.getD i 0
  · rw [if_pos hc] at hfi
    by_cases hc2 : x.getD (aheadIdx x (x.length - 1) (x.getD i 0) (i + 1)) 0 < x.getD i 0
    · rw [if_pos hc2, Option.some.injEq] at hfi
      have hge : i + 1 ≤ aheadIdx x (x.length - 1) (x.getD i 0) (i + 1) :=
        aheadIdxFuel_ge x (x.getD i 0) (x.length - 1 - (i + 1)) (i + 1)
      have hle : aheadIdx x (x.length - 1) (x.getD i 0) (i + 1) ≤ x.length - 1 := by
        have := aheadIdxFuel_le x (x.getD i 0) (x.length - 1 - (i + 1)) (i + 1)
        unfold aheadIdx
        omega
      omega
    · rw [if_neg hc2] at hfi
      exact absurd hfi (by simp)
  · rw [if_neg hc] at hfi
    exact absurd hfi (by simp)

lemma findPeaksProm_fst_mem {x : List ℚ} {d : ℕ} {q : ℚ → Bool} {pp : ℕ × ℚ}
    (h : pp ∈ findPeaksProm x d q) : pp.1 ∈ localMaxima x := by
  unfold findPeaksProm at h
  rw [List.mem_filter] at h
  obtain ⟨hmem, _⟩ := h
  rw [List.mem_map] at hmem
  obtain ⟨p, hp, rfl⟩ := hmem
  rw [List.mem_filterMap] at hp
  obtain ⟨pb, hpb, hif⟩ := hp
  have hzip := List.of_mem_zip hpb
  rcases pb with ⟨p0, b⟩
  cases b with
  | false => simp at hif
  | true =>
    simp only [if_pos] at hif
    rw [Option.some.injEq] at hif
    subst hif
    exact hzip.1

lemma findWristVelocityPeak_none_iff (v : List ℚ) (a : ℕ) :
    findWristVelocityPeak v a = none ↔ v.length ≤ a + 5 := by
  unfold findWristVelocityPeak
  split_ifs with h1 h2 <;> simp [h1]

lemma findWristVelocityPeak_some {v : List ℚ} {a r : ℕ}
    (h : findWristVelocityPeak v a = some r) : a ≤ r ∧ r < v.length := by
  unfold findWristVelocityPeak at h
  split_ifs at h with h1 h2
  · rw [Option.some.injEq] at h
    have hne : v.drop a ≠ [] := by
      rw [ne_eq, List.drop_eq_nil_iff]
      omega
    have hb := (argmaxList_spec hne).1
    rw [List.length_drop] at hb
    omega
  · rw [Option.some.injEq] at h
    have hpne : findPeaksProm (v.drop a) 3 (wristQual (v.drop a)) ≠ [] := h2
    have hmapne : ((findPeaksProm (v.drop a) 3 (wristQual (v.drop a))).map
        fun pp => (v.drop a).getD pp.1 0) ≠ [] := by
      simp [hpne]
    have hidx := (argmaxList_spec hmapne).1
    rw [List.length_map] at hidx
    have hsel : (findPeaksProm (v.drop a) 3 (wristQual (v.drop a))).getD
        (argmaxList ((findPeaksProm (v.drop a) 3 (wristQual (v.drop a))).map
          fun pp => (v.drop a).getD pp.1 0)) (0, 0)
        ∈ findPeaksProm (v.drop a) 3 (wristQual (v.drop a)) := by
      rw [List.getD_eq_getElem _ _ hidx]
      exact List.getElem_mem hidx
    have hb := localMaxima_bounds (findPeaksProm_fst_mem hsel)
    rw [List.length_drop] at hb
    omega

/-- C2 amended: every successful segmentation satisfies
`start_frame < contact_frame ≤ end_frame`,
`total_frames = contact_frame − start_frame`,
`end_frame = min(contact_frame + trunc(0.1·fps), last_frame_index)` (the code
truncates `int(fps * 0.1)` rather than rounding), and
`duration_ms = total_frames / fps × 1000`. -/
theorem c2_amended_segment_invariants (n : ℕ) (fps : ℚ)
    (kneeAngles wristVelocities : Option (List ℚ)) (seg : ShotSegment)
    (hfps : 0 < fps)
    (hw : ∀ wa, wristVelocities = some wa → wa.length = n)
    (h : segmentShotSig n fps kneeAngles wristVelocities = some seg) :
    seg.start_frame < seg.contact_frame
    ∧ seg.contact_frame ≤ seg.end_frame
    ∧ seg.total_frames = seg.contact_frame - seg.start_frame
    ∧ seg.end_frame = min (seg.contact_frame + (⌊fps / 10⌋).toNat) (n - 1)
    ∧ seg.duration_ms = (seg.total_frames : ℚ) / fps * 1000 := by
  unfold segmentShotSig at h
  split_ifs at h with hn
  rcases kneeAngles with _ | ka
  · simp at h
  rcases wristVelocities with _ | wa
  · simp at h
  dsimp only at h
  cases hstart : findKneeFlexionPeak (smoothSignal ka) with
  | none => rw [hstart] at h; simp at h
  | some startF =>
    rw [hstart] at h
    dsimp only at h
    cases hcon : findWristVelocityPeak (smoothSignal wa) startF with
    | none => rw [hcon] at h; simp at h
    | some contactF =>
      rw [hcon] at h
      dsimp only at h
      split_ifs at h with hord
      rw [Option.some.injEq] at h
      subst h
      have hcb := findWristVelocityPeak_some hcon
      rw [smoothSignal_length, hw wa rfl] at hcb
      dsimp only
      refine ⟨by omega, ?_, rfl, rfl, ?_⟩
      · exact Nat.le_min.mpr ⟨Nat.le_add_right _ _, by omega⟩
      · simp only [if_pos hfps]

set_option maxRecDepth 100000 in
/-- Witness for C2 amended at the concrete 20-frame stream, 30 fps. -/
theorem c2_amended_segment_invariants_witness :
    (3 : ℕ) < 10 ∧ (10 : ℕ) ≤ 13 ∧ (7 : ℕ) = 10 - 3
    ∧ (13 : ℕ) = min (10 + (⌊(30 : ℚ) / 10⌋).toNat) (20 - 1)
    ∧ ((700 : ℚ) / 3) = ((7 : ℕ) : ℚ) / 30 * 1000 := by
  have h := c2_amended_segment_invariants 20 30 (some kneeScenarioB) (some wristScenarioB)
    { start_frame := 3, contact_frame := 10, end_frame := 13,
      total_frames := 7, duration_ms := 700 / 3 }
    (by norm_num)
    (by intro wa hwa; rw [Option.some.injEq] at hwa; rw [← hwa]; decide)
    (by decide)
  exact h

set_option maxRecDepth 100000 in
/-- C3 counterexample: the contact search's region includes `start_frame`
itself (first input: the fallback returns frame 0, the start frame), and
among qualifying peaks it selects the highest, not the most prominent
(second input: both peaks qualify, peak 1 has prominence 5, peak 4 has
prominence 2, yet peak 4 is returned because its height 10 is larger). -/
theorem c3_counterexample :
    findWristVelocityPeak [10, 1, 1, 1, 1, 1, 1] 0 = some 0
    ∧ findWristVelocityPeak [0, 5, 0, 8, 10, 8, 9] 0 = some 4
    ∧ findPeaksProm [0, 5, 0, 8, 10, 8, 9] 3 (wristQual [0, 5, 0, 8, 10, 8, 9])
        = [(1, 5), (4, 2)]
    ∧ (2 : ℚ) < 5 := by
  refine ⟨by decide, by decide, by decide, by norm_num⟩

/-- C3 amended: the contact search fails exactly when fewer than 5 frames
remain strictly after `start_frame`; otherwise it searches the region from
`start_frame` on (inclusive) and returns the first global maximum of the
region when no peak qualifies under the prominence/spacing test, and
otherwise the first highest qualifying peak. -/
theorem c3_amended_contact_search (v : List ℚ) (a : ℕ) :
    (findWristVelocityPeak v a = none ↔ v.length ≤ a + 5)
    ∧ (∀ r, findWristVelocityPeak v a = some r →
        a ≤ r ∧ r < v.length
        ∧ (findPeaksProm (v.drop a) 3 (wristQual (v.drop a)) = [] →
            r = a + argmaxList (v.drop a)
            ∧ ∀ i, i < (v.drop a).length →
                (v.drop a).getD i 0 ≤ (v.drop a).getD (r - a) 0)
        ∧ (findPeaksProm (v.drop a) 3 (wristQual (v.drop a)) ≠ [] →
            (r - a) ∈ (findPeaksProm (v.drop a) 3 (wristQual (v.drop a))).map Prod.fst
            ∧ ∀ p ∈ (findPeaksProm (v.drop a) 3 (wristQual (v.drop a))).map Prod.fst,
                (v.drop a).getD p 0 ≤ (v.drop a).getD (r - a) 0)) := by
  constructor
  · exact findWristVelocityPeak_none_iff v a
  intro r hr
  refine ⟨(findWristVelocityPeak_some hr).1, (findWristVelocityPeak_some hr).2, ?_, ?_⟩
  · intro hpk
    unfold findWristVelocityPeak at hr
    split_ifs at hr with h1 h2
    · rw [Option.some.injEq] at hr
      have hne : v.drop a ≠ [] := by
        rw [ne_eq, List.drop_eq_nil_iff]
        omega
      refine ⟨hr.symm, fun i hi => ?_⟩
      have hra : r - a = argmaxList (v.drop a) := by omega
      rw [hra]
      exact (argmaxList_spec hne).2 i hi
  · intro hpk
    unfold findWristVelocityPeak at hr
    split_ifs at hr with h1 h2
    rw [Option.some.injEq] at hr
    have hmapne : ((findPeaksProm (v.drop a) 3 (wristQual (v.drop a))).map
        fun pp => (v.drop a).getD pp.1 0) ≠ [] := by
      simp [hpk]
    have hidx := (argmaxList_spec hmapne).1
    rw [List.length_map] at hidx
    have hsel : (findPeaksProm (v.drop a) 3 (wristQual (v.drop a))).getD
        (argmaxList ((findPeaksProm (v.drop a) 3 (wristQual (v.drop a))).map
          fun pp => (v.drop a).getD pp.1 0)) (0, 0)
        ∈ findPeaksProm (v.drop a) 3 (wristQual (v.drop a)) := by
      rw [List.getD_eq_getElem _ _ hidx]
      exact List.getElem_mem hidx
    have hra : r - a = ((findPeaksProm (v.drop a) 3 (wristQual (v.drop a))).getD
        (argmaxList ((findPeaksProm (v.drop a) 3 (wristQual (v.drop a))).map
          fun pp => (v.drop a).getD pp.1 0)) (0, 0)).1 := by
      omega
    constructor
    · rw [hra]
      exact List.mem_map_of_mem Prod.fst hsel
    · intro p hp
      rw [List.mem_map] at hp
      obtain ⟨pp, hppmem, rfl⟩ := hp
      rw [List.mem_iff_getElem] at hppmem
      obtain ⟨j, hj, hjval⟩ := hppmem
      have hdom := (argmaxList_spec hmapne).2 j (by rw [List.length_map]; exact hj)
      rw [List.getD_eq_getElem _ _ (by rw [List.length_map]; exact hj)] at hdom
      rw [List.getElem_map] at hdom
      rw [hjval] at hdom
      have hvalmax : ((findPeaksProm (v.drop a) 3 (wristQual (v.drop a))).map
          fun pp => (v.drop a).getD pp.1 0).getD
          (argmaxList ((findPeaksProm (v.drop a) 3 (wristQual (v.drop a))).map
            fun pp => (v.drop a).getD pp.1 0)) 0
          = (v.drop a).getD (r - a) 0 := by
        rw [List.getD_eq_getElem _ _ (by rw [List.length_map]; exact hidx)]
        rw [List.getElem_map]
        rw [hra, List.getD_eq_getElem _ _ hidx]
      rw [hvalmax] at hdom
      exact hdom

set_option maxRecDepth 100000 in
/-- Witness for C3 amended at a concrete strictly-rising-then-falling
signal. -/
theorem c3_amended_contact_search_witness :
    (0 : ℕ) ≤ 6 ∧ (6 : ℕ) < ([0, 1, 2, 3, 4, 5, 6, 0] : List ℚ).length :=
  ⟨(((c3_amended_contact_search [0, 1, 2, 3, 4, 5, 6, 0] 0).2 6 (by decide)).1),
   (((c3_amended_contact_search [0, 1, 2, 3, 4, 5, 6, 0] 0).2 6 (by decide)).2.1)⟩

end SmashForm
